import Mathlib

/-!
# Verification of the Torah Window plugin (`torah-window.ts`)

Shallow embedding of the `hanging-indent: first-word` transform of
`packages/core/src/vivliostyle/torah-window.ts`.  The plugin registers two
hooks with the host layout engine:

* `preprocessElementStyleHook` (PREPROCESS_ELEMENT_STYLE): copies the
  `hanging-indent` style value into the node's inherited property mapping;
* `postLayoutBlockHangingIndent` (POST_LAYOUT_BLOCK): after a block is laid
  out, measures the first word, estimates the visual line count from rounded
  rectangle top coordinates, and injects two floated marker elements.

The DOM is modelled as a tree of text and element nodes; the host's
measurement capability (`column.clientLayout.getRangeClientRects`) is an
explicit function parameter from ranges to rectangle lists, with rational
coordinates standing in for the engine's numeric geometry.  Property bags
(`inheritedProps`, `pluginProps`, the resolved style map) are association
lists with JavaScript assignment semantics.
-/

namespace TorahWindow

/-- JavaScript property read `m[k]`: the value at the first matching key. -/
def lookupEntry {α : Type} (m : List (String × α)) (k : String) : Option α :=
  (m.find? (fun p => p.1 = k)).map (fun p => p.2)

/-- JavaScript property write `m[k] = v`: overwrite in place, else append. -/
def setEntry {α : Type} (m : List (String × α)) (k : String) (v : α) :
    List (String × α) :=
  if m.any (fun p => p.1 = k) then
    m.map (fun p => if p.1 = k then (k, v) else p)
  else
    m ++ [(k, v)]

/-- Inline style declaration of a synthesized element.  Only the properties
the plugin assigns are tracked; `""` models an unset property. -/
structure ElemStyle where
  cssFloat : String := ""
  width : String := ""
  height : String := ""
  lineHeight : String := ""
  clear : String := ""
deriving Repr, DecidableEq

/-- A rendered DOM node: a text node (with a stable identifier used to
address measurement ranges) or an element with children. -/
inductive DomNode where
  | text (id : Nat) (textContent : String)
  | elem (tagName className : String) (style : ElemStyle)
      (children : List DomNode)
deriving Repr

/-- A block-level element (the `viewNode` of a post-layout block, after the
source's `as HTMLElement` cast). -/
structure Element where
  tagName : String
  className : String
  style : ElemStyle
  children : List DomNode
deriving Repr

/-- View an `Element` as a `DomNode` (for insertion into a child list). -/
def Element.toNode (e : Element) : DomNode :=
  DomNode.elem e.tagName e.className e.style e.children

/-- A DOM range as the plugin builds them: either
`setStart(node, s); setEnd(node, e)` on a single text node, or
`selectNode(node)` on a whole text node. -/
inductive Range where
  | startEnd (nodeId : Nat) (startOffset endOffset : Nat)
  | selectNode (nodeId : Nat)
deriving Repr, DecidableEq

/-- A client rectangle returned by the measurement capability; only `top`
and `width` are read by the plugin. -/
structure Rect where
  top : ℚ
  width : ℚ
deriving Repr, DecidableEq

/-- The measurement capability `column.clientLayout.getRangeClientRects`. -/
def MeasureFn : Type := Range → List Rect

/-- The per-node layout context (the fields of `Vtree.NodeContext` the
plugin reads or writes).  `pluginProps` values are JavaScript numbers,
modelled as rationals. -/
structure NodeContext where
  inline : Bool
  fragmentIndex : Nat
  inheritedProps : Option (List (String × String))
  pluginProps : Option (List (String × ℚ))
  viewNode : Option Element
deriving Repr

/-- `const HANGING_INDENT_PROP = "hanging-indent"`. -/
def HANGING_INDENT_PROP : String := "hanging-indent"

/-- A resolved style value as the style system hands it to the hook:
a `Css.Ident`, a raw string, or some other object with a `toString`. -/
inductive CssVal where
  | ident (name : String)
  | str (s : String)
  | obj (stringRep : String)
deriving Repr, DecidableEq

/-- JavaScript truthiness of a style value: objects are truthy, a string is
truthy exactly when non-empty. -/
def jsTruthy : CssVal → Bool
  | CssVal.ident _ => true
  | CssVal.str s => !(s == "")
  | CssVal.obj _ => true

/-- The `instanceof Css.Ident` / `typeof "string"` / `toString()` normalization
cascade of the style-capture hook. -/
def cssValToString : CssVal → String
  | CssVal.ident name => name
  | CssVal.str s => s
  | CssVal.obj stringRep => stringRep

/-- Hook 1 (`preprocessElementStyleHook`): if the style map carries a truthy
`hanging-indent` value, normalize it to a string and store it in the node's
inherited property mapping (creating the mapping if absent). -/
def preprocessElementStyleHook (nodeContext : NodeContext)
    (style : List (String × CssVal)) : NodeContext :=
  match lookupEntry style HANGING_INDENT_PROP with
  | some value =>
    if jsTruthy value then
      let stringValue := cssValToString value
      { nodeContext with
        inheritedProps :=
          some (setEntry (nodeContext.inheritedProps.getD [])
            HANGING_INDENT_PROP stringValue) }
    else nodeContext
  | none => nodeContext

/-- The JavaScript test `text.trim().length > 0`: after stripping leading and
trailing whitespace something remains, i.e. the text contains a
non-whitespace character. -/
def trimmedNonEmpty (s : String) : Bool :=
  s.toList.any (fun c => !c.isWhitespace)

mutual

/-- `findFirstTextNode`: depth-first pre-order search for the first text
node whose trimmed content is non-empty; returns its id and text. -/
def findFirstTextNode : DomNode → Option (Nat × String)
  | DomNode.text id textContent =>
    if trimmedNonEmpty textContent then some (id, textContent) else none
  | DomNode.elem _ _ _ children => findFirstTextNodeList children

/-- The child loop of `findFirstTextNode`. -/
def findFirstTextNodeList : List DomNode → Option (Nat × String)
  | [] => none
  | n :: rest =>
    match findFirstTextNode n with
    | some result => some result
    | none => findFirstTextNodeList rest

end

mutual

/-- `collectTextNodes`: all text nodes with non-empty trimmed content, in
document order. -/
def collectTextNodes : DomNode → List (Nat × String)
  | DomNode.text id textContent =>
    if trimmedNonEmpty textContent then [(id, textContent)] else []
  | DomNode.elem _ _ _ children => collectTextNodesList children

/-- The child loop of `collectTextNodes`. -/
def collectTextNodesList : List DomNode → List (Nat × String)
  | [] => []
  | n :: rest => collectTextNodes n ++ collectTextNodesList rest

end

/-- `text.match(/^(\s*\S+\s+)/)`: length of the capture (leading whitespace,
then one-or-more non-whitespace, then one-or-more whitespace), or `none` when
the pattern does not match at the start of the string. -/
def matchFirstWordLen (text : String) : Option Nat :=
  let cs := text.toList
  let ws1 := cs.takeWhile Char.isWhitespace
  let rest := cs.dropWhile Char.isWhitespace
  let word := rest.takeWhile (fun c => !c.isWhitespace)
  if word.isEmpty then none
  else
    let rest2 := rest.dropWhile (fun c => !c.isWhitespace)
    let ws2 := rest2.takeWhile Char.isWhitespace
    if ws2.isEmpty then none
    else some (ws1.length + word.length + ws2.length)

/-- Sum of the `width` of every rectangle of a measured range
(the `firstWordWidth += rect.width` loop). -/
def sumWidths (rects : List Rect) : ℚ :=
  (rects.map Rect.width).sum

/-- The first-word width: find the first non-empty text node, match the
leading `\s*\S+\s+` pattern, measure the range spanning exactly the matched
substring, and sum the rectangle widths; `0` when any step fails. -/
def firstWordWidthOf (measure : MeasureFn) (blockElement : Element) : ℚ :=
  match findFirstTextNodeList blockElement.children with
  | some (id, text) =>
    match matchFirstWordLen text with
    | some len => sumWidths (measure (Range.startEnd id 0 len))
    | none => 0
  | none => 0

/-- The line-count estimate: the number of distinct `round(rect.top)` values
over the rectangles of every non-empty text node of the block
(the `lineYPositions` set). -/
def lineCountOf (measure : MeasureFn) (blockElement : Element) : Nat :=
  (((collectTextNodesList blockElement.children).map
      (fun tn => (measure (Range.selectNode tn.1)).map
        (fun rect => round rect.top))).flatten).dedup.length

/-- The spacer marker (`floatSpacer`): zero-width, 1.5rlh-tall float at the
line-start edge; `clear` is never assigned. -/
def floatSpacer : Element :=
  { tagName := "span"
    className := "vivliostyle-hanging-indent-spacer"
    style := { cssFloat := "inline-start", width := "0", height := "1.5rlh",
               lineHeight := "inherit", clear := "" }
    children := [] }

/-- The pusher marker (`floatIndent`): float at the line-start edge, cleared
against it, `firstWordWidth` pixels wide and 1px tall. -/
def floatIndent (firstWordWidth : ℚ) : Element :=
  { tagName := "span"
    className := "vivliostyle-hanging-indent-pusher"
    style := { cssFloat := "inline-start", clear := "inline-start",
               width := toString firstWordWidth ++ "px", height := "1px",
               lineHeight := "" }
    children := [] }

/-- The successful tail of the post-layout callback: the two
`insertBefore(_, firstChild)` calls (spacer, then pusher, before the original
first child) and the three `pluginProps` diagnostic writes. -/
def applyIndent (nodeContext : NodeContext) (blockElement : Element)
    (firstWordWidth : ℚ) (lineCount : Nat) : NodeContext :=
  { nodeContext with
    viewNode := some { blockElement with
      children := floatSpacer.toNode :: (floatIndent firstWordWidth).toNode ::
        blockElement.children }
    pluginProps := some (setEntry (setEntry (setEntry
      (nodeContext.pluginProps.getD [])
      "torahWindow:applied" 1)
      "torahWindow:width" firstWordWidth)
      "torahWindow:lineCount" (lineCount : ℚ)) }

/-!
## Sample inputs

Concrete data used to instantiate the theorems below: a two-line paragraph
`<P>Hello world, this wraps.</P>` whose first word plus space (`"Hello "`,
6 characters) measures 42px, whose whole text yields rectangles on two
distinct lines (tops 0 and 20), together with degenerate variants.
-/

/-- The text node `"Hello world, this wraps."`, with node id 0. -/
def sampleText : DomNode := DomNode.text 0 "Hello world, this wraps."

/-- A `<P>` block whose only child is `sampleText`. -/
def sampleBlockElem : Element :=
  { tagName := "P", className := "", style := {}, children := [sampleText] }

/-- Measurement for `sampleBlockElem`: the first-word range `[0, 6)` of node 0
is one 42px-wide rectangle; the whole node spans rectangles on two lines. -/
def sampleMeasure : MeasureFn := fun r =>
  match r with
  | Range.startEnd 0 0 6 => [{ top := 0, width := 42 }]
  | Range.selectNode 0 => [{ top := 0, width := 100 }, { top := 19.6, width := 80 }]
  | _ => []

/-- A measurement under which the whole of node 0 lands on a single line. -/
def singleLineMeasure : MeasureFn := fun r =>
  match r with
  | Range.startEnd 0 0 6 => [{ top := 0, width := 42 }]
  | Range.selectNode 0 => [{ top := 0, width := 100 }, { top := 0.4, width := 80 }]
  | _ => []

/-- An eligible first-fragment block context carrying
`hanging-indent: first-word`, viewing `sampleBlockElem`. -/
def sampleCtx : NodeContext :=
  { inline := false, fragmentIndex := 1
    inheritedProps := some [("hanging-indent", "first-word")]
    pluginProps := none, viewNode := some sampleBlockElem }

/-- A text node (id 1) whose content `"Hello"` has no trailing whitespace,
so the first-word pattern cannot match. -/
def noSpaceText : DomNode := DomNode.text 1 "Hello"

/-- A block whose only text is `noSpaceText`. -/
def noSpaceBlockElem : Element :=
  { tagName := "P", className := "", style := {}, children := [noSpaceText] }

/-- An otherwise eligible context viewing `noSpaceBlockElem`. -/
def noSpaceCtx : NodeContext :=
  { inline := false, fragmentIndex := 1
    inheritedProps := some [("hanging-indent", "first-word")]
    pluginProps := none, viewNode := some noSpaceBlockElem }

/-- An eligible-looking context with no inherited property mapping at all. -/
def noPropsCtx : NodeContext :=
  { inline := false, fragmentIndex := 1, inheritedProps := none
    pluginProps := none, viewNode := some sampleBlockElem }

/-- A continuation-fragment context (`fragmentIndex = 2`) for `sampleBlockElem`. -/
def fragment2Ctx : NodeContext :=
  { inline := false, fragmentIndex := 2
    inheritedProps := some [("hanging-indent", "first-word")]
    pluginProps := none, viewNode := some sampleBlockElem }

/-- A node context before style capture, with no inherited properties. -/
def freshCtx : NodeContext :=
  { inline := false, fragmentIndex := 1, inheritedProps := none
    pluginProps := none, viewNode := none }

/-- A resolved style map carrying `hanging-indent: first-word` as a CSS
identifier. -/
def firstWordStyle : List (String × CssVal) :=
  [("hanging-indent", CssVal.ident "first-word")]

/-- A resolved style map with no `hanging-indent` declaration. -/
def emptyStyle : List (String × CssVal) := [("color", CssVal.ident "red")]

/-- `sampleBlockElem` after one successful transform: the two markers sit in
front of the original text node. -/
def onceBlockElem : Element :=
  { sampleBlockElem with
    children := [floatSpacer.toNode, (floatIndent 42).toNode, sampleText] }

/-- Hook 2 (`postLayoutBlockHangingIndent`): the eligibility gate, the
line-geometry probe, and the indent injection.  `checkPoints` is read only
for its length, so it is a list of units. -/
def postLayoutBlockHangingIndent (measure : MeasureFn)
    (nodeContext : NodeContext) (checkPoints : List Unit) : NodeContext :=
  if checkPoints.length = 0 then nodeContext
  else if nodeContext.inline then nodeContext
  else if 1 < nodeContext.fragmentIndex then nodeContext
  else
    match nodeContext.inheritedProps with
    | none => nodeContext
    | some inheritedProps =>
      match lookupEntry inheritedProps HANGING_INDENT_PROP with
      | none => nodeContext
      | some hangingIndentValue =>
        if hangingIndentValue = "" then nodeContext
        else if hangingIndentValue ≠ "first-word" then nodeContext
        else
          match nodeContext.viewNode with
          | none => nodeContext
          | some blockElement =>
            if findFirstTextNodeList blockElement.children = none ∨
                firstWordWidthOf measure blockElement = 0 then nodeContext
            else if lineCountOf measure blockElement < 2 then nodeContext
            else
              applyIndent nodeContext blockElement
                (firstWordWidthOf measure blockElement)
                (lineCountOf measure blockElement)

/-!
## Generic lemmas about the property-bag operations
-/

theorem find_map_overwrite {α : Type} (m : List (String × α)) (k : String) (v : α)
    (h : m.any (fun p => p.1 = k) = true) :
    (m.map (fun p => if p.1 = k then (k, v) else p)).find? (fun p => p.1 = k) =
      some (k, v) := by
  induction m with
  | nil => simp at h
  | cons p rest ih =>
    by_cases hp : p.1 = k
    · rw [List.map_cons, if_pos hp, List.find?_cons_of_pos _ (by simp)]
    · have hrest : rest.any (fun p => p.1 = k) = true := by
        simpa [List.any_cons, hp] using h
      rw [List.map_cons, if_neg hp, List.find?_cons_of_neg _ (by simp [hp])]
      exact ih hrest

theorem find_append_single {α : Type} (m : List (String × α)) (k : String) (v : α)
    (h : m.any (fun p => p.1 = k) = false) :
    (m ++ [(k, v)]).find? (fun p => p.1 = k) = some (k, v) := by
  induction m with
  | nil => rw [List.nil_append, List.find?_cons_of_pos _ (by simp)]
  | cons p rest ih =>
    have hp : ¬(p.1 = k) := by
      intro hk
      simp [List.any_cons, hk] at h
    have hrest : rest.any (fun p => p.1 = k) = false := by
      simpa [List.any_cons, hp] using h
    rw [List.cons_append, List.find?_cons_of_neg _ (by simp [hp])]
    exact ih hrest

theorem find_map_other {α : Type} (m : List (String × α)) (k q : String) (v : α)
    (hne : q ≠ k) :
    (m.map (fun p => if p.1 = k then (k, v) else p)).find? (fun p => p.1 = q) =
      m.find? (fun p => p.1 = q) := by
  induction m with
  | nil => rfl
  | cons p rest ih =>
    by_cases hp : p.1 = k
    · have h1 : ¬((k, v).1 = q) := fun hk => hne hk.symm
      have h2 : ¬(p.1 = q) := by rw [hp]; exact fun hk => hne hk.symm
      rw [List.map_cons, if_pos hp, List.find?_cons_of_neg _ (by simpa using h1),
        List.find?_cons_of_neg _ (by simpa using h2)]
      exact ih
    · by_cases hpq : p.1 = q
      · rw [List.map_cons, if_neg hp, List.find?_cons_of_pos _ (by simpa using hpq),
          List.find?_cons_of_pos _ (by simpa using hpq)]
      · rw [List.map_cons, if_neg hp, List.find?_cons_of_neg _ (by simpa using hpq),
          List.find?_cons_of_neg _ (by simpa using hpq)]
        exact ih

theorem find_append_other {α : Type} (m : List (String × α)) (k q : String) (v : α)
    (hne : q ≠ k) :
    (m ++ [(k, v)]).find? (fun p => p.1 = q) = m.find? (fun p => p.1 = q) := by
  have hkq : ¬((k, v).1 = q) := fun hk => hne hk.symm
  rw [List.find?_append, List.find?_cons_of_neg _ (by simpa using hkq),
    List.find?_nil]
  exact Option.or_none

theorem lookupEntry_setEntry_self {α : Type} (m : List (String × α)) (k : String)
    (v : α) : lookupEntry (setEntry m k v) k = some v := by
  unfold lookupEntry setEntry
  split
  next h =>
    rw [find_map_overwrite m k v h]
    rfl
  next h =>
    have h' : m.any (fun p => p.1 = k) = false := by
      rwa [Bool.not_eq_true] at h
    rw [find_append_single m k v h']
    rfl

theorem lookupEntry_setEntry_other {α : Type} (m : List (String × α))
    (k q : String) (v : α) (hne : q ≠ k) :
    lookupEntry (setEntry m k v) q = lookupEntry m q := by
  unfold lookupEntry setEntry
  split
  next h => rw [find_map_other m k q v hne]
  next h => rw [find_append_other m k q v hne]

/-!
## Structure of the post-layout callback
-/

/-- If no non-empty text node exists, the measured first-word width is 0. -/
theorem firstWordWidthOf_of_find_none (measure : MeasureFn) (blockElement : Element)
    (h : findFirstTextNodeList blockElement.children = none) :
    firstWordWidthOf measure blockElement = 0 := by
  unfold firstWordWidthOf
  rw [h]

/-- If the first-word pattern fails on the first text node, the measured
width is 0. -/
theorem firstWordWidthOf_of_match_none (measure : MeasureFn) (blockElement : Element)
    (id : Nat) (text : String)
    (hfind : findFirstTextNodeList blockElement.children = some (id, text))
    (h : matchFirstWordLen text = none) :
    firstWordWidthOf measure blockElement = 0 := by
  unfold firstWordWidthOf
  simp only [hfind, h]

/-- Every run of the post-layout callback either returns the context
unchanged or passes every gate and ends in `applyIndent`. -/
theorem postLayout_result (measure : MeasureFn) (ctx : NodeContext)
    (cp : List Unit) :
    postLayoutBlockHangingIndent measure ctx cp = ctx ∨
    (cp.length ≠ 0 ∧ ctx.inline = false ∧ ctx.fragmentIndex ≤ 1 ∧
      (∃ ip, ctx.inheritedProps = some ip ∧
        lookupEntry ip HANGING_INDENT_PROP = some "first-word") ∧
      ∃ be, ctx.viewNode = some be ∧
        findFirstTextNodeList be.children ≠ none ∧
        firstWordWidthOf measure be ≠ 0 ∧
        2 ≤ lineCountOf measure be ∧
        postLayoutBlockHangingIndent measure ctx cp =
          applyIndent ctx be (firstWordWidthOf measure be)
            (lineCountOf measure be)) := by
  unfold postLayoutBlockHangingIndent
  split
  · exact Or.inl rfl
  next hcp =>
    split
    · exact Or.inl rfl
    next hinl =>
      split
      · exact Or.inl rfl
      next hfrag =>
        split
        · exact Or.inl rfl
        next ip hip =>
          split
          · exact Or.inl rfl
          next v hlk =>
            split
            · exact Or.inl rfl
            next hblank =>
              split
              · exact Or.inl rfl
              next hval =>
                split
                · exact Or.inl rfl
                next be hbe =>
                  split
                  · exact Or.inl rfl
                  next habort =>
                    split
                    · exact Or.inl rfl
                    next hlc =>
                      refine Or.inr ⟨hcp, by simpa using hinl,
                        Nat.not_lt.mp hfrag, ⟨ip, hip, ?_⟩,
                        be, hbe, (not_or.mp habort).1, (not_or.mp habort).2,
                        Nat.not_lt.mp hlc, rfl⟩
                      rw [hlk, not_not.mp hval]

/-- When every gate passes, the post-layout callback performs exactly the
`applyIndent` step on the measured width and line count. -/
theorem postLayout_applies (measure : MeasureFn) (ctx : NodeContext)
    (cp : List Unit) (be : Element) (ip : List (String × String))
    (hcp : cp.length ≠ 0) (hinline : ctx.inline = false)
    (hfrag : ctx.fragmentIndex ≤ 1)
    (hip : ctx.inheritedProps = some ip)
    (hlk : lookupEntry ip HANGING_INDENT_PROP = some "first-word")
    (hv : ctx.viewNode = some be)
    (hfind : findFirstTextNodeList be.children ≠ none)
    (hW : firstWordWidthOf measure be ≠ 0)
    (hn : 2 ≤ lineCountOf measure be) :
    postLayoutBlockHangingIndent measure ctx cp =
      applyIndent ctx be (firstWordWidthOf measure be)
        (lineCountOf measure be) := by
  unfold postLayoutBlockHangingIndent
  rw [if_neg hcp]
  rw [if_neg (by simp [hinline])]
  rw [if_neg (by omega : ¬(1 < ctx.fragmentIndex))]
  simp only [hip, hlk, hv]
  rw [if_neg (by simp : ¬(("first-word" : String) = ""))]
  rw [if_neg (by simp : ¬(("first-word" : String) ≠ "first-word"))]
  rw [if_neg (not_or.mpr ⟨hfind, hW⟩)]
  rw [if_neg (Nat.not_lt.mpr hn)]

/-- A zero measured first-word width forces the no-op outcome. -/
theorem postLayout_of_width_zero (measure : MeasureFn) (ctx : NodeContext)
    (cp : List Unit) (be : Element) (hv : ctx.viewNode = some be)
    (hw0 : firstWordWidthOf measure be = 0) :
    postLayoutBlockHangingIndent measure ctx cp = ctx := by
  rcases postLayout_result measure ctx cp with h | ⟨_, _, _, _, be2, hv2, _, hW, _, _⟩
  · exact h
  · rw [hv] at hv2
    cases Option.some.inj hv2
    exact absurd hw0 hW

/-!
## Concrete evaluations of the sample data
-/

theorem sampleFind : findFirstTextNodeList sampleBlockElem.children =
    some (0, "Hello world, this wraps.") := by
  simp only [sampleBlockElem, sampleText, findFirstTextNodeList, findFirstTextNode]
  decide

theorem sampleWidth : firstWordWidthOf sampleMeasure sampleBlockElem = 42 := by
  unfold firstWordWidthOf
  rw [sampleFind]
  simp only [show matchFirstWordLen "Hello world, this wraps." = some 6 from by decide]
  simp [sampleMeasure, sumWidths]

theorem sampleCollect : collectTextNodesList sampleBlockElem.children =
    [(0, "Hello world, this wraps.")] := by
  simp only [sampleBlockElem, sampleText, collectTextNodesList, collectTextNodes]
  decide

theorem sampleLineCount : lineCountOf sampleMeasure sampleBlockElem = 2 := by
  unfold lineCountOf
  rw [sampleCollect]
  simp [sampleMeasure]
  norm_num [round_eq]

theorem singleLineCount : lineCountOf singleLineMeasure sampleBlockElem = 1 := by
  unfold lineCountOf
  rw [sampleCollect]
  simp [singleLineMeasure]
  norm_num [round_eq]

theorem onceFind : findFirstTextNodeList onceBlockElem.children =
    some (0, "Hello world, this wraps.") := by
  simp only [onceBlockElem, sampleBlockElem, sampleText, Element.toNode,
    floatSpacer, floatIndent, findFirstTextNodeList, findFirstTextNode]
  decide

theorem onceWidth : firstWordWidthOf sampleMeasure onceBlockElem = 42 := by
  unfold firstWordWidthOf
  rw [onceFind]
  simp only [show matchFirstWordLen "Hello world, this wraps." = some 6 from by decide]
  simp [sampleMeasure, sumWidths]

theorem onceCollect : collectTextNodesList onceBlockElem.children =
    [(0, "Hello world, this wraps.")] := by
  simp only [onceBlockElem, sampleBlockElem, sampleText, Element.toNode,
    floatSpacer, floatIndent, collectTextNodesList, collectTextNodes]
  decide

theorem onceLineCount : lineCountOf sampleMeasure onceBlockElem = 2 := by
  unfold lineCountOf
  rw [onceCollect]
  simp [sampleMeasure]
  norm_num [round_eq]

theorem noSpaceFind : findFirstTextNodeList noSpaceBlockElem.children =
    some (1, "Hello") := by
  simp only [noSpaceBlockElem, noSpaceText, findFirstTextNodeList, findFirstTextNode]
  decide

/-!
## The claims
-/

/-- C1: for a block past the eligibility gate with measured first-word width
W > 0 and at least two distinct rounded rectangle tops, the callback prepends
exactly the spacer and pusher markers (in that order) before the original
first child, the pusher's width style is W pixels, and the plugin-scoped
diagnostics record applied = 1, width = W, and lineCount = the number of
distinct rounded top positions. -/
theorem claim_C1 (measure : MeasureFn) (ctx : NodeContext) (cp : List Unit)
    (be : Element) (ip : List (String × String))
    (hcp : cp.length ≠ 0) (hinline : ctx.inline = false)
    (hfrag : ctx.fragmentIndex ≤ 1)
    (hip : ctx.inheritedProps = some ip)
    (hlk : lookupEntry ip HANGING_INDENT_PROP = some "first-word")
    (hv : ctx.viewNode = some be)
    (hW : 0 < firstWordWidthOf measure be)
    (hn : 2 ≤ lineCountOf measure be) :
    (postLayoutBlockHangingIndent measure ctx cp).viewNode =
      some { be with children := floatSpacer.toNode ::
        (floatIndent (firstWordWidthOf measure be)).toNode :: be.children } ∧
    (floatIndent (firstWordWidthOf measure be)).style.width =
      toString (firstWordWidthOf measure be) ++ "px" ∧
    lookupEntry ((postLayoutBlockHangingIndent measure ctx cp).pluginProps.getD [])
      "torahWindow:applied" = some 1 ∧
    lookupEntry ((postLayoutBlockHangingIndent measure ctx cp).pluginProps.getD [])
      "torahWindow:width" = some (firstWordWidthOf measure be) ∧
    lookupEntry ((postLayoutBlockHangingIndent measure ctx cp).pluginProps.getD [])
      "torahWindow:lineCount" = some ((lineCountOf measure be : ℚ)) := by
  have hfind : findFirstTextNodeList be.children ≠ none := fun h =>
    hW.ne' (firstWordWidthOf_of_find_none measure be h)
  have happ := postLayout_applies measure ctx cp be ip hcp hinline hfrag hip hlk
    hv hfind hW.ne' hn
  rw [happ]
  refine ⟨rfl, rfl, ?_, ?_, ?_⟩
  · simp only [applyIndent, Option.getD_some]
    rw [lookupEntry_setEntry_other _ "torahWindow:lineCount" "torahWindow:applied" _
        (by decide),
      lookupEntry_setEntry_other _ "torahWindow:width" "torahWindow:applied" _
        (by decide),
      lookupEntry_setEntry_self]
  · simp only [applyIndent, Option.getD_some]
    rw [lookupEntry_setEntry_other _ "torahWindow:lineCount" "torahWindow:width" _
        (by decide),
      lookupEntry_setEntry_self]
  · simp only [applyIndent, Option.getD_some]
    rw [lookupEntry_setEntry_self]

/-- Witness for C1 at the sample two-line block (W = 42, two lines). -/
theorem claim_C1_witness :
    (postLayoutBlockHangingIndent sampleMeasure sampleCtx [()]).viewNode =
      some { sampleBlockElem with children := floatSpacer.toNode ::
        (floatIndent 42).toNode :: sampleBlockElem.children } ∧
    lookupEntry ((postLayoutBlockHangingIndent sampleMeasure sampleCtx
      [()]).pluginProps.getD []) "torahWindow:applied" = some 1 ∧
    lookupEntry ((postLayoutBlockHangingIndent sampleMeasure sampleCtx
      [()]).pluginProps.getD []) "torahWindow:width" = some 42 ∧
    lookupEntry ((postLayoutBlockHangingIndent sampleMeasure sampleCtx
      [()]).pluginProps.getD []) "torahWindow:lineCount" =
        some ((2 : Nat) : ℚ) := by
  have h := claim_C1 sampleMeasure sampleCtx [()] sampleBlockElem
    [("hanging-indent", "first-word")] (by decide) rfl (by decide) rfl (by decide)
    rfl (by rw [sampleWidth]; norm_num) (by rw [sampleLineCount])
  rw [sampleWidth, sampleLineCount] at h
  exact ⟨h.1, h.2.2.1, h.2.2.2.1, h.2.2.2.2⟩

/-- C2: the spacer marker floats to the line-start edge with width 0 and no
clear, as claimed, but its height style is the literal "1.5rlh": 1.5 CSS
root-line-height units, resolved against the root element's line metric,
not "1.5lh" in the block's own line metric as the claim states.  The
source's own comment above the spacer describes its height in the plain
line-height unit, and the code sets the spacer's line-height to "inherit"
(pointless under a root-relative unit), so the block-relative metric is the
intent and the extra "r" in the emitted unit is the slip.  On the sample
eligible block the callback injects exactly this root-relative spacer. -/
theorem claim_C2 :
    floatSpacer.style.cssFloat = "inline-start" ∧
    floatSpacer.style.width = "0" ∧
    floatSpacer.style.clear = "" ∧
    floatSpacer.style.lineHeight = "inherit" ∧
    floatSpacer.style.height = "1.5rlh" ∧
    floatSpacer.style.height ≠ "1.5lh" ∧
    (postLayoutBlockHangingIndent sampleMeasure sampleCtx [()]).viewNode =
      some { sampleBlockElem with children := floatSpacer.toNode ::
        (floatIndent 42).toNode :: sampleBlockElem.children } := by
  refine ⟨rfl, rfl, rfl, rfl, rfl, by decide, ?_⟩
  have h1 := postLayout_applies sampleMeasure sampleCtx [()] sampleBlockElem
    [("hanging-indent", "first-word")] (by decide) rfl (by decide) rfl (by decide)
    rfl (by simp [sampleFind]) (by rw [sampleWidth]; norm_num)
    (by rw [sampleLineCount])
  rw [sampleWidth, sampleLineCount] at h1
  rw [h1]
  rfl

/-- C3: the first-word width is the sum of the rectangle widths of the range
spanning exactly the substring matched by the leading
whitespace-word-whitespace pattern; a failed match or a zero sum makes the
whole callback a no-op, regardless of line count. -/
theorem claim_C3 (measure : MeasureFn) (ctx : NodeContext) (cp : List Unit)
    (be : Element) (id : Nat) (text : String)
    (hv : ctx.viewNode = some be)
    (hfind : findFirstTextNodeList be.children = some (id, text)) :
    (∀ len, matchFirstWordLen text = some len →
      firstWordWidthOf measure be = sumWidths (measure (Range.startEnd id 0 len))) ∧
    (matchFirstWordLen text = none →
      postLayoutBlockHangingIndent measure ctx cp = ctx) ∧
    (∀ len, matchFirstWordLen text = some len →
      sumWidths (measure (Range.startEnd id 0 len)) = 0 →
      postLayoutBlockHangingIndent measure ctx cp = ctx) := by
  refine ⟨?_, ?_, ?_⟩
  · intro len hlen
    unfold firstWordWidthOf
    simp only [hfind, hlen]
  · intro hnone
    exact postLayout_of_width_zero measure ctx cp be hv
      (firstWordWidthOf_of_match_none measure be id text hfind hnone)
  · intro len hlen hsum
    refine postLayout_of_width_zero measure ctx cp be hv ?_
    unfold firstWordWidthOf
    simp only [hfind, hlen]
    exact hsum

/-- Witness for C3: on `"Hello"` (no trailing whitespace) the pattern fails
and the callback returns the context unchanged. -/
theorem claim_C3_witness :
    matchFirstWordLen "Hello" = none ∧
    postLayoutBlockHangingIndent sampleMeasure noSpaceCtx [()] = noSpaceCtx := by
  refine ⟨by decide, ?_⟩
  exact (claim_C3 sampleMeasure noSpaceCtx [()] noSpaceBlockElem 1 "Hello" rfl
    noSpaceFind).2.1 (by decide)

/-- C4: when the inherited property mapping is absent, lacks the
hanging-indent key, or carries any value other than "first-word", the
callback is a no-op. -/
theorem claim_C4 (measure : MeasureFn) (ctx : NodeContext) (cp : List Unit)
    (h : ctx.inheritedProps = none ∨
      ∃ ip, ctx.inheritedProps = some ip ∧
        (lookupEntry ip HANGING_INDENT_PROP = none ∨
          ∃ v, lookupEntry ip HANGING_INDENT_PROP = some v ∧ v ≠ "first-word")) :
    postLayoutBlockHangingIndent measure ctx cp = ctx := by
  rcases postLayout_result measure ctx cp with hres | ⟨_, _, _, ⟨ip2, hip2, hlk2⟩, _⟩
  · exact hres
  · rcases h with hnone | ⟨ip, hip, hbad⟩
    · rw [hnone] at hip2
      cases hip2
    · rw [hip] at hip2
      cases Option.some.inj hip2
      rcases hbad with hln | ⟨v, hlv, hvne⟩
      · rw [hln] at hlk2
        cases hlk2
      · rw [hlv] at hlk2
        exact absurd (Option.some.inj hlk2) hvne

/-- Witness for C4: a context with no inherited property mapping. -/
theorem claim_C4_witness :
    postLayoutBlockHangingIndent sampleMeasure noPropsCtx [()] = noPropsCtx :=
  claim_C4 sampleMeasure noPropsCtx [()] (Or.inl rfl)

/-- C5: a fragment index exceeding 1 makes the callback a no-op regardless
of content or style value. -/
theorem claim_C5 (measure : MeasureFn) (ctx : NodeContext) (cp : List Unit)
    (h : 1 < ctx.fragmentIndex) :
    postLayoutBlockHangingIndent measure ctx cp = ctx := by
  rcases postLayout_result measure ctx cp with hres | ⟨_, _, hfrag, _⟩
  · exact hres
  · omega

/-- Witness for C5: the second fragment of the sample block. -/
theorem claim_C5_witness :
    postLayoutBlockHangingIndent sampleMeasure fragment2Ctx [()] = fragment2Ctx :=
  claim_C5 sampleMeasure fragment2Ctx [()] (by decide)

/-- C6: fewer than two distinct rounded rectangle top positions make the
callback a no-op. -/
theorem claim_C6 (measure : MeasureFn) (ctx : NodeContext) (cp : List Unit)
    (be : Element) (hv : ctx.viewNode = some be)
    (h : lineCountOf measure be < 2) :
    postLayoutBlockHangingIndent measure ctx cp = ctx := by
  rcases postLayout_result measure ctx cp with hres | ⟨_, _, _, _, be2, hv2, _, _, hn, _⟩
  · exact hres
  · rw [hv] at hv2
    cases Option.some.inj hv2
    omega

/-- Witness for C6: the sample block under a measurement in which all
rectangles round to one top. -/
theorem claim_C6_witness :
    lineCountOf singleLineMeasure sampleBlockElem = 1 ∧
    postLayoutBlockHangingIndent singleLineMeasure sampleCtx [()] = sampleCtx := by
  refine ⟨singleLineCount, ?_⟩
  exact claim_C6 singleLineMeasure sampleCtx [()] sampleBlockElem rfl
    (by rw [singleLineCount]; omega)

/-- C7: every invocation is atomic: it returns the context unchanged, or it
performs the complete `applyIndent` step (marker injection plus the three
diagnostics writes) on the measured width and line count. -/
theorem claim_C7 (measure : MeasureFn) (ctx : NodeContext) (cp : List Unit) :
    postLayoutBlockHangingIndent measure ctx cp = ctx ∨
    ∃ be, ctx.viewNode = some be ∧
      postLayoutBlockHangingIndent measure ctx cp =
        applyIndent ctx be (firstWordWidthOf measure be)
          (lineCountOf measure be) := by
  rcases postLayout_result measure ctx cp with h | ⟨_, _, _, _, be, hv, _, _, _, happ⟩
  · exact Or.inl h
  · exact Or.inr ⟨be, hv, happ⟩

/-- C8: the style-capture hook writes the normalized string of a truthy
hanging-indent style value under the fixed key of the inherited property
mapping, leaves the context unchanged for a missing or falsy value, and
touches no field other than the inherited property mapping. -/
theorem claim_C8 (ctx : NodeContext) (style : List (String × CssVal)) :
    (∀ v, lookupEntry style HANGING_INDENT_PROP = some v → jsTruthy v = true →
      preprocessElementStyleHook ctx style =
        { ctx with inheritedProps := some (setEntry (ctx.inheritedProps.getD [])
            HANGING_INDENT_PROP (cssValToString v)) }) ∧
    (lookupEntry style HANGING_INDENT_PROP = none →
      preprocessElementStyleHook ctx style = ctx) ∧
    (∀ v, lookupEntry style HANGING_INDENT_PROP = some v → jsTruthy v = false →
      preprocessElementStyleHook ctx style = ctx) ∧
    preprocessElementStyleHook ctx style =
      { ctx with inheritedProps := (preprocessElementStyleHook ctx style).inheritedProps } := by
  refine ⟨?_, ?_, ?_, ?_⟩
  · intro v hl ht
    unfold preprocessElementStyleHook
    rw [hl]
    simp only [ht, if_true]
  · intro hm
    unfold preprocessElementStyleHook
    rw [hm]
  · intro v hl hf
    unfold preprocessElementStyleHook
    rw [hl]
    simp only [hf, Bool.false_eq_true, if_false]
  · unfold preprocessElementStyleHook
    split
    · split
      · rfl
      · rfl
    · rfl

/-- Witness for C8: capture of `hanging-indent: first-word` on a fresh
context, and a no-op on a style map without the property. -/
theorem claim_C8_witness :
    preprocessElementStyleHook freshCtx firstWordStyle =
      { freshCtx with inheritedProps := some [("hanging-indent", "first-word")] } ∧
    preprocessElementStyleHook freshCtx emptyStyle = freshCtx := by
  constructor
  · have h := (claim_C8 freshCtx firstWordStyle).1 (CssVal.ident "first-word")
      (by decide) rfl
    exact h.trans (by rfl)
  · exact (claim_C8 freshCtx emptyStyle).2.1 (by decide)

/-- C9: the callback is not idempotent: on the sample block a second
invocation on the already-transformed first fragment measures the same first
word again and inserts a second pair of markers, leaving four markers in
front of the original text node. -/
theorem claim_C9 :
    (postLayoutBlockHangingIndent sampleMeasure sampleCtx [()]).viewNode =
      some { sampleBlockElem with children := [floatSpacer.toNode,
        (floatIndent 42).toNode, sampleText] } ∧
    (postLayoutBlockHangingIndent sampleMeasure
        (postLayoutBlockHangingIndent sampleMeasure sampleCtx [()]) [()]).viewNode =
      some { sampleBlockElem with children := [floatSpacer.toNode,
        (floatIndent 42).toNode, floatSpacer.toNode, (floatIndent 42).toNode,
        sampleText] } := by
  have h1 := postLayout_applies sampleMeasure sampleCtx [()] sampleBlockElem
    [("hanging-indent", "first-word")] (by decide) rfl (by decide) rfl (by decide)
    rfl (by simp [sampleFind]) (by rw [sampleWidth]; norm_num)
    (by rw [sampleLineCount])
  rw [sampleWidth, sampleLineCount] at h1
  have h2 := postLayout_applies sampleMeasure
    (applyIndent sampleCtx sampleBlockElem 42 2) [()] onceBlockElem
    [("hanging-indent", "first-word")] (by decide) rfl (by decide) rfl (by decide)
    rfl (by simp [onceFind]) (by rw [onceWidth]; norm_num)
    (by rw [onceLineCount])
  rw [onceWidth, onceLineCount] at h2
  constructor
  · rw [h1]
    rfl
  · rw [h1, h2]
    rfl

/-- C10: a successful application keeps every pre-existing child in order
after the two markers, never writes the inherited property mapping, and its
only layout-context writes are the three diagnostic keys. -/
theorem claim_C10 (measure : MeasureFn) (ctx : NodeContext) (cp : List Unit) :
    (postLayoutBlockHangingIndent measure ctx cp).inheritedProps =
      ctx.inheritedProps ∧
    (postLayoutBlockHangingIndent measure ctx cp = ctx ∨
      ∃ be, ctx.viewNode = some be ∧
        (postLayoutBlockHangingIndent measure ctx cp).viewNode =
          some { be with children := floatSpacer.toNode ::
            (floatIndent (firstWordWidthOf measure be)).toNode :: be.children } ∧
        (postLayoutBlockHangingIndent measure ctx cp).pluginProps =
          some (setEntry (setEntry (setEntry (ctx.pluginProps.getD [])
            "torahWindow:applied" 1)
            "torahWindow:width" (firstWordWidthOf measure be))
            "torahWindow:lineCount" ((lineCountOf measure be : ℚ)))) := by
  rcases postLayout_result measure ctx cp with h | ⟨_, _, _, _, be, hv, _, _, _, happ⟩
  · rw [h]
    exact ⟨rfl, Or.inl rfl⟩
  · rw [happ]
    exact ⟨rfl, Or.inr ⟨be, hv, rfl, rfl⟩⟩

end TorahWindow
